import Mathlib

/-!
Shallow embedding of `load_table.py` / `app.py` from the
Speler-Beweging-wedstrijd repository.

Conventions of the embedding:
* Python strings are embedded as `List Char` (`PyStr`), so that all string
  operations are structural and kernel-computable.  Python's `str.casefold`
  is modelled by `Char.toLower` (they agree on ASCII, which is all the code
  compares).
* Pandas numeric scalars (the result of `pd.to_numeric(..., errors="coerce")`
  and of float arithmetic on them) are embedded as `PVal`: NaN, +inf, -inf or
  an exact rational.  IEEE rounding is idealised to exact rational arithmetic;
  the special values (NaN propagation, division by zero giving ±inf or NaN)
  follow IEEE / numpy semantics exactly.
* CSV cells of the four numeric columns are modelled post-coercion (a cell
  that is missing or non-numeric in the CSV is the value `PVal.nan`, exactly
  what `pd.to_numeric(..., errors="coerce")` produces for it).
* `pd.Timestamp` values derived from 8-digit match ids are embedded as the
  integer `YYYYMMDD`, which is order-isomorphic to the chronological order on
  the dates the code can produce; `pd.Timestamp.min` (1677-09-21 00:12:43),
  used by `fillna`, is strictly below every parseable `%Y%m%d` midnight, and
  is embedded as `0`.
* `df.sort_values(by=[...], ascending=[...], kind="mergesort")` is a stable
  sort by the lexicographic key; a stable sort by a total preorder has a
  unique result, so it is embedded as a stable insertion sort (`sortS`).
-/

namespace SpelerBeweging

/-- Pandas/NumPy float scalar: NaN, +inf, -inf, or a (idealised exact) number. -/
inductive PVal where
  | nan : PVal
  | inf : PVal
  | ninf : PVal
  | num : ℚ → PVal
deriving DecidableEq, Repr

/-- Python `a < b` on float scalars: every comparison involving NaN is False. -/
def pyLt : PVal → PVal → Bool
  | PVal.num x, PVal.num y => decide (x < y)
  | PVal.num _, PVal.inf => true
  | PVal.ninf, PVal.num _ => true
  | PVal.ninf, PVal.inf => true
  | _, _ => false

/-- Python two-argument `min(a, b)`: returns `b` only when `b < a`
(so `min(x, nan) = x` but `min(nan, x) = nan`). -/
def pyMin (a b : PVal) : PVal := if pyLt b a then b else a

/-- Python two-argument `max(a, b)`: returns `b` only when `b > a`. -/
def pyMax (a b : PVal) : PVal := if pyLt a b then b else a

/-- Float subtraction of a finite constant (used by the bar-ratio formula). -/
def pySub (v : PVal) (q : ℚ) : PVal :=
  match v with
  | PVal.nan => PVal.nan
  | PVal.inf => PVal.inf
  | PVal.ninf => PVal.ninf
  | PVal.num x => PVal.num (x - q)

/-- IEEE float division as performed by numpy/pandas on coerced series:
NaN propagates; finite/0 is ±inf (NaN for 0/0). -/
def pyDiv : PVal → PVal → PVal
  | PVal.nan, _ => PVal.nan
  | _, PVal.nan => PVal.nan
  | PVal.num a, PVal.num b =>
      if b = 0 then
        (if a = 0 then PVal.nan else if 0 < a then PVal.inf else PVal.ninf)
      else PVal.num (a / b)
  | PVal.num _, PVal.inf => PVal.num 0
  | PVal.num _, PVal.ninf => PVal.num 0
  | PVal.inf, PVal.num b => if b < 0 then PVal.ninf else PVal.inf
  | PVal.ninf, PVal.num b => if b < 0 then PVal.inf else PVal.ninf
  | PVal.inf, _ => PVal.nan
  | PVal.ninf, _ => PVal.nan

/-- Python strings, embedded as character lists. -/
abbrev PyStr := List Char

/-- Coerce a Lean string literal into the embedding. -/
def pstr (s : String) : PyStr := s.data

/-- Python whitespace (the ASCII cases of `str.split`/`str.strip`). -/
def isWs (c : Char) : Bool :=
  c = ' ' || c = '\t' || c = '\n' || c = '\r' || c = '\x0b' || c = '\x0c'

/-- Python `str.strip()`. -/
def trimL (s : PyStr) : PyStr :=
  ((s.dropWhile isWs).reverse.dropWhile isWs).reverse

/-- Worker for `str.split()` (split on whitespace runs, dropping empties). -/
def splitWsAux : PyStr → PyStr → List PyStr
  | [], acc => if acc.isEmpty then [] else [acc.reverse]
  | c :: cs, acc =>
      if isWs c then
        (if acc.isEmpty then splitWsAux cs [] else acc.reverse :: splitWsAux cs [])
      else splitWsAux cs (c :: acc)

/-- `" ".join(s.strip().split())` from `_parse_home_away_and_opponent`. -/
def normalizeWs (s : PyStr) : PyStr :=
  List.intercalate (pstr " ") (splitWsAux s [])

/-- Python `needle in hay` (substring containment; `"" in s` is True). -/
def containsL : PyStr → PyStr → Bool
  | _, [] => true
  | [], _ :: _ => false
  | h :: t, n :: ns => List.isPrefixOf (n :: ns) (h :: t) || containsL t (n :: ns)

/-- Fuelled worker for Python `str.split(sep)` (non-overlapping, left to right).
The fuel strictly exceeds the remaining length at every call site, so the
fuel-exhausted arm is never reached for the non-empty separators used here. -/
def splitOnFuel (sep : PyStr) : Nat → PyStr → PyStr → List PyStr
  | 0, rem, acc => [acc.reverse ++ rem]
  | _ + 1, [], acc => [acc.reverse]
  | fuel + 1, c :: cs, acc =>
      if List.isPrefixOf sep (c :: cs) then
        acc.reverse :: splitOnFuel sep fuel (List.drop sep.length (c :: cs)) []
      else splitOnFuel sep fuel cs (c :: acc)

/-- Python `s.split(sep)` for a non-empty separator. -/
def splitOnL (s sep : PyStr) : List PyStr :=
  splitOnFuel sep (s.length + 1) s []

/-- Python `str.casefold()` (modelled by per-character lowercasing; the code
only compares ASCII club names). -/
def lowerL (s : PyStr) : PyStr := s.map Char.toLower

/-- The separator list of `_parse_home_away_and_opponent`, in source order. -/
def SEPARATORS : List PyStr :=
  [pstr " vs ", pstr " v ", pstr " VS ", pstr " Vs ", pstr " V "]

/-- The separator loop of `_parse_home_away_and_opponent`: the first separator
whose split yields exactly two parts wins (`sep in normalized` together with
`len(parts) == 2` is equivalent to the split having exactly two parts). -/
def findSplitGo (n : PyStr) : List PyStr → Option (PyStr × PyStr)
  | [] => none
  | sep :: rest =>
      match splitOnL n sep with
      | [l, r] => some (trimL l, trimL r)
      | _ => findSplitGo n rest

/-- The home/away resolution of `_parse_home_away_and_opponent` once a
left/right pair has been found: exact casefolded equality first, then
substring containment, left before right; otherwise `"?"` with the re-joined
label. -/
def resolveHomeAway (club l r : PyStr) : PyStr × PyStr :=
  let clubN := lowerL (trimL club)
  let lN := lowerL l
  let rN := lowerL r
  if clubN = lN then (pstr "Home", r)
  else if clubN = rN then (pstr "Away", l)
  else if containsL lN clubN then (pstr "Home", r)
  else if containsL rN clubN then (pstr "Away", l)
  else (pstr "?", l ++ pstr " vs " ++ r)

/-- `_parse_home_away_and_opponent(match_name, club)`.  The `isinstance(str)`
guard is type-level in the embedding; the empty/whitespace guard remains. -/
def parseHomeAwayAndOpponent (matchName club : PyStr) : PyStr × PyStr :=
  if trimL matchName = [] then (pstr "?", pstr "Unknown")
  else
    match findSplitGo (normalizeWs matchName) SEPARATORS with
    | none => (pstr "?", normalizeWs matchName)
    | some (l, r) => resolveHomeAway club l r

/-- Accumulate a decimal digit string into a natural number (`none` on a
non-digit character). -/
def digitsValAux : PyStr → Nat → Option Nat
  | [], acc => some acc
  | c :: cs, acc =>
      if c.isDigit then digitsValAux cs (acc * 10 + (c.toNat - 48)) else none

/-- Python `int(s)` for a string: strip, optional sign, non-empty digit run.
(Underscore separators and non-ASCII digits are not modelled.) -/
def parseIntPy (s : PyStr) : Option Int :=
  match trimL s with
  | [] => none
  | '-' :: ds =>
      if ds = [] then none else (digitsValAux ds 0).map (fun n => -(n : Int))
  | '+' :: ds =>
      if ds = [] then none else (digitsValAux ds 0).map (fun n => (n : Int))
  | ds => (digitsValAux ds 0).map (fun n => (n : Int))

/-- Gregorian leap year. -/
def isLeapYear (y : Nat) : Bool :=
  (y % 4 = 0 && y % 100 ≠ 0) || y % 400 = 0

/-- Days in a month (0 for an invalid month number). -/
def daysInMonth (y m : Nat) : Nat :=
  if m = 1 || m = 3 || m = 5 || m = 7 || m = 8 || m = 10 || m = 12 then 31
  else if m = 4 || m = 6 || m = 9 || m = 11 then 30
  else if m = 2 then (if isLeapYear y then 29 else 28)
  else 0

/-- Encoding of `pd.Timestamp.min` used by `fillna(pd.Timestamp.min)`: it is
strictly below the `YYYYMMDD` encoding of every date `%Y%m%d` can produce
inside pandas' timestamp bounds (all of which are ≥ 16770922). -/
def tsMinEnc : Int := 0

/-- `_match_date_from_match_id`: `str(int(match_id))` must have exactly 8
characters (hence be 8 digits: a sign would make `%Y%m%d` fail) and parse as a
calendar date inside pandas' nanosecond-timestamp bounds
(1677-09-22 .. 2262-04-11 at midnight).  The timestamp is embedded as the
integer `YYYYMMDD`, which is order-isomorphic to the date. -/
def matchDateFromMatchId (s : PyStr) : Option Int :=
  match parseIntPy s with
  | none => none
  | some n =>
      if 10000000 ≤ n ∧ n < 100000000 then
        if 1 ≤ n.toNat / 100 % 100 ∧ n.toNat / 100 % 100 ≤ 12
            ∧ 1 ≤ n.toNat % 100
            ∧ n.toNat % 100 ≤ daysInMonth (n.toNat / 10000) (n.toNat / 100 % 100)
            ∧ 16770922 ≤ n ∧ n ≤ 22620411 then
          some n
        else none
      else none

/-- Fraction part helper for `pd.to_numeric` on decimal strings. -/
def parseDecQ (ds : PyStr) : Option ℚ :=
  match splitOnL ds (pstr ".") with
  | [ip, fp] =>
      if ip.all Char.isDigit && fp.all Char.isDigit && (ip ≠ [] || fp ≠ []) then
        match digitsValAux ip 0, digitsValAux fp 0 with
        | some i, some f => some ((i : ℚ) + (f : ℚ) / (10 : ℚ) ^ fp.length)
        | _, _ => none
      else none
  | _ => none

/-- `pd.to_numeric(s, errors="coerce")` on a string cell: an integer or plain
decimal literal parses to its exact value, anything else is NaN (`none`).
(Scientific notation is not modelled; no claim depends on it.) -/
def pyToNumeric (s : PyStr) : Option ℚ :=
  match parseIntPy s with
  | some n => some (n : ℚ)
  | none =>
      match trimL s with
      | '-' :: ds => (parseDecQ ds).map Neg.neg
      | '+' :: ds => parseDecQ ds
      | ds => parseDecQ ds

/-- One raw CSV row (the ten required columns).  The four numeric columns are
modelled post-`to_numeric` coercion: a missing or non-numeric cell is
`PVal.nan`. -/
structure RawRow where
  player_id : PyStr
  player_name : PyStr
  match_id : PyStr
  match_name : PyStr
  club : PyStr
  minutes : PVal
  total_distance : PVal
  hi_runs : PVal
  sprint_runs : PVal
  position : PyStr
deriving DecidableEq, Repr

/-- One row of the frame produced by `_compute_player_match_metrics`. -/
structure MetricRow where
  match_id : PyStr
  match_date : Option Int
  match_id_num : Option ℚ
  match_label : PyStr
  player_name : PyStr
  position : PyStr
  minutes : PVal
  total_km : PVal
  m_per_min : PVal
  runs : PVal
  sprints : PVal
deriving DecidableEq, Repr

/-- The per-row body of `_compute_player_match_metrics`: home/away parsing,
date derivation, numeric coercions and the two unit derivations
`total_km = total_distance / 1000` and `m_per_min = total_distance / minutes`
(as pandas float division on the coerced series). -/
def metricOfRow (r : RawRow) : MetricRow :=
  let ha := parseHomeAwayAndOpponent r.match_name r.club
  { match_id := r.match_id
    match_date := matchDateFromMatchId r.match_id
    match_id_num := pyToNumeric r.match_id
    match_label := ha.1 ++ pstr " • " ++ ha.2
    player_name := r.player_name
    position := r.position
    minutes := r.minutes
    total_km := pyDiv r.total_distance (PVal.num 1000)
    m_per_min := pyDiv r.total_distance r.minutes
    runs := r.hi_runs
    sprints := r.sprint_runs }

/-- The raw table: its column-name list (for schema validation) and its rows.
Extra columns beyond the required ten carry no data the pipeline reads, so
only their names are modelled. -/
structure DataFrame where
  columns : List String
  rows : List RawRow

/-- `_compute_player_match_metrics(df, team_name, player_name)`: filter on
`club == team AND player_name == player` (exact string equality), then derive
metrics per surviving row. -/
def computePlayerMatchMetrics (df : DataFrame) (team player : PyStr) :
    List MetricRow :=
  (df.rows.filter
      (fun r => decide (r.club = team) && decide (r.player_name = player))).map
    metricOfRow

/-- `REQUIRED_COLUMNS` from the source (a Python set; order immaterial). -/
def REQUIRED_COLUMNS : List String :=
  ["player_id", "player_name", "match_id", "match_name", "club", "Minutes",
   "total_distance", "hi_runs", "sprint_runs", "position"]

/-- Strict lexicographic comparison on embedded strings (Python `<` on str). -/
def pstrLt : PyStr → PyStr → Bool
  | [], [] => false
  | [], _ :: _ => true
  | _ :: _, [] => false
  | a :: as, b :: bs => if a < b then true else if b < a then false else pstrLt as bs

/-- Non-strict lexicographic comparison on embedded strings. -/
def pstrLE (a b : PyStr) : Bool := !pstrLt b a

/-- Stable insertion into a sorted list (ties keep the inserted, earlier
element first). -/
def insertS (le : α → α → Bool) (x : α) : List α → List α
  | [] => [x]
  | y :: ys => if le x y then x :: y :: ys else y :: insertS le x ys

/-- Stable sort (equal to any stable sort — in particular pandas'
`kind="mergesort"` — by the same total preorder). -/
def sortS (le : α → α → Bool) : List α → List α
  | [] => []
  | x :: xs => insertS le x (sortS le xs)

/-- `sorted(REQUIRED_COLUMNS - set(df.columns))` from `validate_physical_data`. -/
def missingColumns (df : DataFrame) : List String :=
  sortS (fun a b => pstrLE a.data b.data)
    (REQUIRED_COLUMNS.filter (fun c => decide (c ∉ df.columns)))

/-- The two error kinds the pipeline can raise (both `ValueError` in Python,
distinguished by their message). -/
inductive PhysError where
  | schema : List String → PhysError
  | notFound : PhysError
deriving DecidableEq, Repr

/-- `validate_physical_data(df)`. -/
def validatePhysicalData (df : DataFrame) : Except PhysError Unit :=
  if missingColumns df = [] then Except.ok ()
  else Except.error (PhysError.schema (missingColumns df))

/-- `list_teams(df)`: sorted unique club names. -/
def listTeams (df : DataFrame) : List PyStr :=
  sortS pstrLE ((df.rows.map (fun r => r.club)).dedup)

/-- The `app.py` main flow up to the team listing: `validate_physical_data` is
called (and on failure stops the app) before `list_teams` runs. -/
def appMainFlow (df : DataFrame) : Except PhysError (List PyStr) :=
  match validatePhysicalData df with
  | Except.error e => Except.error e
  | Except.ok _ => Except.ok (listTeams df)

/-- One display row: a metric row plus `_player_rank` and `_row_type`. -/
structure TaggedRow where
  m : MetricRow
  player_rank : Nat
  row_type : String
deriving DecidableEq, Repr

/-- `_sort_date`: the match date with `NaT` filled by `pd.Timestamp.min`. -/
def sortDate (t : TaggedRow) : Int := (t.m.match_date).getD tsMinEnc

/-- Lexicographic combination of two boolean total preorders. -/
def lexB (le1 le2 : α → α → Bool) (a b : α) : Bool :=
  le1 a b && (!le1 b a || le2 a b)

/-- First sort key: `_sort_date` descending. -/
def dateLE (a b : TaggedRow) : Bool := decide (sortDate b ≤ sortDate a)

/-- Second sort key: `_match_id_num` descending with NaN last
(pandas `na_position="last"`). -/
def numLE (a b : TaggedRow) : Bool :=
  match a.m.match_id_num, b.m.match_id_num with
  | some p, some q => decide (q ≤ p)
  | some _, none => true
  | none, some _ => false
  | none, none => true

/-- Third sort key: the raw `match_id` descending. -/
def rawLE (a b : TaggedRow) : Bool := pstrLE b.m.match_id a.m.match_id

/-- Fourth sort key: `_player_rank` ascending. -/
def rankLE (a b : TaggedRow) : Bool := decide (a.player_rank ≤ b.player_rank)

/-- The full ordering of `sort_values(by=["_sort_date", "_match_id_num",
"match_id", "_player_rank"], ascending=[False, False, False, True])`. -/
def rowLE : TaggedRow → TaggedRow → Bool :=
  lexB dateLE (lexB numLE (lexB rawLE rankLE))

/-- Tag a metric list with `_player_rank` and `_row_type`. -/
def tagRows (l : List MetricRow) (rank : Nat) (ty : String) : List TaggedRow :=
  l.map (fun m => { m := m, player_rank := rank, row_type := ty })

/-- The row-combination step of `build_player_match_overview` before sorting:
`compare_active = bool(name) and str(name) != str(player)`; an empty
comparison result degrades to the target-only rows. -/
def combinedRows (df : DataFrame) (team p : PyStr) (comp : Option PyStr) :
    List TaggedRow :=
  let p1 := tagRows (computePlayerMatchMetrics df team p) 0 "primary"
  match comp with
  | none => p1
  | some s =>
      if s = [] || decide (s = p) then p1
      else
        let p2 := computePlayerMatchMetrics df team s
        if p2 = [] then p1 else p1 ++ tagRows p2 1 "compare"

/-- `build_player_match_overview(df, team, player, compare)` up to the ordered
display rows: re-validate the schema, compute the target metrics (raising the
not-found `ValueError` when empty), combine with the optional comparison
player, and stable-sort by the four-part key. -/
def buildPlayerMatchOverview (df : DataFrame) (team p : PyStr)
    (comp : Option PyStr) : Except PhysError (List TaggedRow) :=
  match validatePhysicalData df with
  | Except.error e => Except.error e
  | Except.ok _ =>
      if computePlayerMatchMetrics df team p = [] then
        Except.error PhysError.notFound
      else Except.ok (sortS rowLE (combinedRows df team p comp))

/-- `BAR_SCALES` from the source. -/
def BAR_SCALES : List (String × ℚ × ℚ) :=
  [("Total distance (km)", 0, 13), ("m/min", 0, 140), ("Runs", 0, 50),
   ("Sprints", 0, 20)]

/-- `_clamp(v, lo, hi) = max(lo, min(hi, v))` with Python `min`/`max`
argument semantics (NaN is never `<`-smaller, so `min(hi, nan) = hi`). -/
def clampPy (v lo hi : PVal) : PVal := pyMax lo (pyMin hi v)

/-- The bar-fraction computation of `table_to_png_bytes` for one cell:
`ratio = 0.0 if vmax <= vmin else (v_float - vmin) / float(vmax - vmin)`
then `_clamp(ratio, 0.0, 1.0)`.  `float(v)` never raises on a numeric cell
(in particular `float(nan)` is NaN, not an exception), so the
`except: v_float = 0.0` fallback is unreachable for the frame's numeric
columns. -/
def barFraction (vmin vmax : ℚ) (v : PVal) : PVal :=
  let r := if vmax ≤ vmin then PVal.num 0
           else pyDiv (pySub v vmin) (PVal.num (vmax - vmin))
  clampPy r (PVal.num 0) (PVal.num 1)

/-- The numeric text printed in a bar cell: `"—"` when `pd.isna(v)`, else the
raw (unclamped) value formatted. -/
def barPrintedValue (v : PVal) : Option PVal :=
  if v = PVal.nan then none else some v

/-- `_clamp` on plain (finite) rationals, as used for the layout scale. -/
def clampQ (v lo hi : ℚ) : ℚ := max lo (min hi v)

/-- `sum(base_col_widths[c] for c in show_cols)` from `table_to_png_bytes`. -/
def baseTableW : ℚ := 260 + 180 + 70 + 70 + 320 + 260 + 220 + 220

/-- `base_header_h + len(df) * base_row_h` from `table_to_png_bytes`. -/
def baseTableH (nRows : Nat) : ℚ := 56 + (nRows : ℚ) * 52

/-- `scale = _clamp(min(scale_w, scale_h), 0.45, 1.35)` from
`table_to_png_bytes`, as a function of the available drawing area. -/
def layoutScale (availW availH : ℚ) (nRows : Nat) : ℚ :=
  clampQ (min (availW / baseTableW) (availH / baseTableH nRows)) 0.45 1.35

/-! ### Concrete fixtures used by witnesses and counterexamples -/

/-- Build one raw CSV row of the modelled table. -/
def mkRow (pname mid mname clubName : String) (mins dist hir spr : PVal) : RawRow :=
  { player_id := pstr "1"
    player_name := pstr pname
    match_id := pstr mid
    match_name := pstr mname
    club := pstr clubName
    minutes := mins
    total_distance := dist
    hi_runs := hir
    sprint_runs := spr
    position := pstr "FW" }

/-- A well-formed table: club `X` with players `A` (matches 20230101 and
20230108) and `B` (matches 20230101 and 20230115), plus an extra column. -/
def dfFix : DataFrame :=
  { columns := REQUIRED_COLUMNS ++ ["extra"]
    rows :=
      [mkRow "A" "20230101" "X vs Y" "X" (PVal.num 90) (PVal.num 10000)
         (PVal.num 20) (PVal.num 5),
       mkRow "A" "20230108" "Z vs X" "X" (PVal.num 85) (PVal.num 9500)
         (PVal.num 18) (PVal.num 4),
       mkRow "B" "20230101" "X vs Y" "X" (PVal.num 70) (PVal.num 8000)
         (PVal.num 15) (PVal.num 3),
       mkRow "B" "20230115" "X vs W" "X" (PVal.num 90) (PVal.num 11000)
         (PVal.num 22) (PVal.num 6)] }

/-- A table whose column set lacks `hi_runs`. -/
def dfMissingHiRuns : DataFrame :=
  { columns := ["player_id", "player_name", "match_id", "match_name", "club",
                "Minutes", "total_distance", "sprint_runs", "position"]
    rows := [] }

/-- A one-row table with `Minutes = 0` and positive `total_distance`. -/
def dfZeroMin : DataFrame :=
  { columns := REQUIRED_COLUMNS
    rows := [mkRow "A" "20230101" "X vs Y" "X" (PVal.num 0) (PVal.num 10000)
      PVal.nan PVal.nan] }

/-! ### Generic lemmas about the stable sort and the lexicographic comparator -/

theorem insertS_perm (le : α → α → Bool) (x : α) (l : List α) :
    List.Perm (insertS le x l) (x :: l) := by
  induction l with
  | nil => exact List.Perm.refl _
  | cons y ys ih =>
      simp only [insertS]
      by_cases h : le x y
      · simp [h]
      · simp only [h, if_false]
        exact ((ih.cons y).trans (List.Perm.swap x y ys))

theorem sortS_perm (le : α → α → Bool) (l : List α) :
    List.Perm (sortS le l) l := by
  induction l with
  | nil => exact List.Perm.refl _
  | cons x xs ih => exact (insertS_perm le x (sortS le xs)).trans (ih.cons x)

theorem mem_insertS {le : α → α → Bool} {x a : α} {l : List α} :
    a ∈ insertS le x l ↔ a = x ∨ a ∈ l := by
  rw [(insertS_perm le x l).mem_iff]; simp

theorem insertS_pairwise {le : α → α → Bool}
    (htot : ∀ a b, le a b = true ∨ le b a = true)
    (htr : ∀ a b c, le a b = true → le b c = true → le a c = true)
    (x : α) {l : List α} (hl : l.Pairwise (fun a b => le a b = true)) :
    (insertS le x l).Pairwise (fun a b => le a b = true) := by
  induction l with
  | nil => simp [insertS]
  | cons y ys ih =>
      rw [List.pairwise_cons] at hl
      by_cases h : le x y = true
      · simp only [insertS, h, if_pos]
        refine List.pairwise_cons.2 ⟨?_, List.pairwise_cons.2 ⟨hl.1, hl.2⟩⟩
        intro z hz
        rcases List.mem_cons.1 hz with hz | hz
        · exact hz ▸ h
        · exact htr x y z h (hl.1 z hz)
      · have hyx : le y x = true := (htot x y).resolve_left h
        simp only [insertS, h, if_neg, Bool.false_eq_true, not_false_iff]
        refine List.pairwise_cons.2 ⟨?_, ih hl.2⟩
        intro z hz
        rcases mem_insertS.1 hz with hz | hz
        · exact hz ▸ hyx
        · exact hl.1 z hz

theorem sortS_pairwise {le : α → α → Bool}
    (htot : ∀ a b, le a b = true ∨ le b a = true)
    (htr : ∀ a b c, le a b = true → le b c = true → le a c = true)
    (l : List α) : (sortS le l).Pairwise (fun a b => le a b = true) := by
  induction l with
  | nil => simp [sortS]
  | cons x xs ih => exact insertS_pairwise htot htr x ih

theorem lexB_le1 {le1 le2 : α → α → Bool} {a b : α}
    (h : lexB le1 le2 a b = true) : le1 a b = true := by
  simp only [lexB, Bool.and_eq_true] at h; exact h.1

theorem lexB_le2 {le1 le2 : α → α → Bool} {a b : α}
    (h : lexB le1 le2 a b = true) (hba : le1 b a = true) : le2 a b = true := by
  simp only [lexB, Bool.and_eq_true, Bool.or_eq_true, Bool.not_eq_true'] at h
  rcases h.2 with h2 | h2
  · rw [hba] at h2; cases h2
  · exact h2

theorem lexB_of_eq {le1 le2 : α → α → Bool} {a b : α}
    (hab : le1 a b = true) (hba : le1 b a = true) :
    lexB le1 le2 a b = le2 a b := by
  simp [lexB, hab, hba]

theorem lexB_total {le1 le2 : α → α → Bool}
    (h1 : ∀ a b, le1 a b = true ∨ le1 b a = true)
    (h2 : ∀ a b, le2 a b = true ∨ le2 b a = true) :
    ∀ a b, lexB le1 le2 a b = true ∨ lexB le1 le2 b a = true := by
  intro a b
  cases hab : le1 a b with
  | false =>
      have hba : le1 b a = true := (h1 a b).resolve_left (by simp [hab])
      right; simp [lexB, hab, hba]
  | true =>
      cases hba : le1 b a with
      | false => left; simp [lexB, hab, hba]
      | true =>
          rcases h2 a b with h | h
          · left; simp [lexB, hab, hba, h]
          · right; simp [lexB, hab, hba, h]

theorem lexB_trans {le1 le2 : α → α → Bool}
    (h1 : ∀ a b c, le1 a b = true → le1 b c = true → le1 a c = true)
    (h2 : ∀ a b c, le2 a b = true → le2 b c = true → le2 a c = true)
    (a b c : α) (hab : lexB le1 le2 a b = true) (hbc : lexB le1 le2 b c = true) :
    lexB le1 le2 a c = true := by
  have hab1 : le1 a b = true := lexB_le1 hab
  have hbc1 : le1 b c = true := lexB_le1 hbc
  have hac1 : le1 a c = true := h1 a b c hab1 hbc1
  simp only [lexB, Bool.and_eq_true, Bool.or_eq_true, Bool.not_eq_true']
  refine ⟨hac1, ?_⟩
  cases hca : le1 c a with
  | false => left; rfl
  | true =>
      right
      have hba : le1 b a = true := h1 b c a hbc1 hca
      have hcb : le1 c b = true := h1 c a b hca hab1
      exact h2 a b c (lexB_le2 hab hba) (lexB_le2 hbc hcb)

/-! ### Lemmas about the string comparison -/

theorem pstrLt_nil (b : PyStr) : pstrLt b [] = false := by
  cases b <;> rfl

theorem pstrLt_asymm : ∀ {a b : PyStr}, pstrLt a b = true → pstrLt b a = false
  | [], [], h => by cases h
  | [], _ :: _, _ => pstrLt_nil _
  | _ :: _, [], h => by rw [pstrLt_nil] at h; cases h
  | a :: as, b :: bs, h => by
      simp only [pstrLt] at h ⊢
      by_cases hab : a < b
      · rw [if_neg (asymm hab), if_pos hab]
      · rw [if_neg hab] at h
        by_cases hba : b < a
        · rw [if_pos hba] at h; cases h
        · rw [if_neg hba] at h
          rw [if_neg hba, if_neg hab, pstrLt_asymm h]

theorem pstrLt_trans : ∀ {a b c : PyStr},
    pstrLt a b = true → pstrLt b c = true → pstrLt a c = true
  | [], b, [], _, h => by rw [pstrLt_nil] at h; cases h
  | [], _, _ :: _, _, _ => rfl
  | _ :: _, [], _, h, _ => by rw [pstrLt_nil] at h; cases h
  | _ :: _, _ :: _, [], _, h => by rw [pstrLt_nil] at h; cases h
  | a :: as, b :: bs, c :: cs, hab, hbc => by
      simp only [pstrLt] at hab hbc ⊢
      by_cases h1 : a < b
      · by_cases h2 : b < c
        · rw [if_pos (lt_trans h1 h2)]
        · rw [if_neg h2] at hbc
          by_cases h3 : c < b
          · rw [if_pos h3] at hbc; cases hbc
          · have hbceq : b = c := le_antisymm (not_lt.1 h3) (not_lt.1 h2)
            subst hbceq; rw [if_pos h1]
      · rw [if_neg h1] at hab
        by_cases h1' : b < a
        · rw [if_pos h1'] at hab; cases hab
        · rw [if_neg h1'] at hab
          have habeq : a = b := le_antisymm (not_lt.1 h1') (not_lt.1 h1)
          subst habeq
          by_cases h2 : a < c
          · rw [if_pos h2]
          · rw [if_neg h2] at hbc ⊢
            by_cases h3 : c < a
            · rw [if_pos h3] at hbc; cases hbc
            · rw [if_neg h3] at hbc ⊢
              exact pstrLt_trans hab hbc

theorem pstrLt_connex : ∀ {a b : PyStr},
    pstrLt a b = false → pstrLt b a = false → a = b
  | [], [], _, _ => rfl
  | [], _ :: _, h, _ => by cases h
  | _ :: _, [], _, h => by cases h
  | a :: as, b :: bs, hab, hba => by
      simp only [pstrLt] at hab hba
      by_cases h1 : a < b
      · rw [if_pos h1] at hab; cases hab
      · rw [if_neg h1] at hab
        by_cases h2 : b < a
        · rw [if_pos h2] at hba; cases hba
        · rw [if_neg h2] at hab
          rw [if_neg h2, if_neg h1] at hba
          have habeq : a = b := le_antisymm (not_lt.1 h2) (not_lt.1 h1)
          subst habeq
          rw [pstrLt_connex hab hba]

theorem pstrLt_false_trans {a b c : PyStr}
    (hab : pstrLt b a = false) (hbc : pstrLt c b = false) :
    pstrLt c a = false := by
  cases hca : pstrLt c a with
  | false => rfl
  | true =>
      exfalso
      cases h1 : pstrLt a b with
      | true => rw [pstrLt_trans hca h1] at hbc; cases hbc
      | false =>
          have habeq : a = b := pstrLt_connex h1 hab
          subst habeq; rw [hca] at hbc; cases hbc

theorem pstrLE_total (a b : PyStr) : pstrLE a b = true ∨ pstrLE b a = true := by
  unfold pstrLE
  cases h : pstrLt b a with
  | false => left; rfl
  | true => right; simp [pstrLt_asymm h]

theorem pstrLE_trans {a b c : PyStr}
    (hab : pstrLE a b = true) (hbc : pstrLE b c = true) : pstrLE a c = true := by
  unfold pstrLE at *
  simp only [Bool.not_eq_true'] at *
  exact pstrLt_false_trans hab hbc

theorem pstrLE_refl (a : PyStr) : pstrLE a a = true := by
  cases h : pstrLt a a with
  | false => simp [pstrLE, h]
  | true => have := pstrLt_asymm h; rw [this] at h; cases h

theorem pstrLE_antisymm {a b : PyStr}
    (hab : pstrLE a b = true) (hba : pstrLE b a = true) : a = b := by
  unfold pstrLE at *
  simp only [Bool.not_eq_true'] at *
  exact pstrLt_connex hba hab

/-! ### The four sort keys form total transitive boolean preorders -/

theorem dateLE_total (a b : TaggedRow) : dateLE a b = true ∨ dateLE b a = true := by
  unfold dateLE
  rcases le_total (sortDate b) (sortDate a) with h | h
  · left; exact decide_eq_true h
  · right; exact decide_eq_true h

theorem dateLE_trans (a b c : TaggedRow)
    (hab : dateLE a b = true) (hbc : dateLE b c = true) : dateLE a c = true := by
  unfold dateLE at *
  exact decide_eq_true (le_trans (of_decide_eq_true hbc) (of_decide_eq_true hab))

theorem dateLE_antisymm {a b : TaggedRow}
    (hab : dateLE a b = true) (hba : dateLE b a = true) :
    sortDate a = sortDate b := by
  unfold dateLE at *
  exact le_antisymm (of_decide_eq_true hba) (of_decide_eq_true hab)

theorem numLE_total (a b : TaggedRow) : numLE a b = true ∨ numLE b a = true := by
  unfold numLE
  rcases ha : a.m.match_id_num with _ | p <;> rcases hb : b.m.match_id_num with _ | q
  · left; rfl
  · right; rfl
  · left; rfl
  · rcases le_total q p with h | h
    · left; exact decide_eq_true h
    · right; exact decide_eq_true h

theorem numLE_trans (a b c : TaggedRow)
    (hab : numLE a b = true) (hbc : numLE b c = true) : numLE a c = true := by
  unfold numLE at *
  rcases ha : a.m.match_id_num with _ | p <;>
    rcases hb : b.m.match_id_num with _ | q <;>
      rcases hc : c.m.match_id_num with _ | r <;>
        rw [ha, hb] at hab <;> rw [hb, hc] at hbc
  · simp at hbc
  · simp at hab
  · simp at hbc
  · exact decide_eq_true
      (le_trans (of_decide_eq_true hbc) (of_decide_eq_true hab))

theorem numLE_antisymm {a b : TaggedRow}
    (hab : numLE a b = true) (hba : numLE b a = true) :
    a.m.match_id_num = b.m.match_id_num := by
  unfold numLE at *
  rcases ha : a.m.match_id_num with _ | p <;>
    rcases hb : b.m.match_id_num with _ | q <;>
      rw [ha, hb] at hab hba
  · simp at hab
  · simp at hba
  · exact congrArg some (le_antisymm (of_decide_eq_true hba) (of_decide_eq_true hab))

theorem numLE_of_eq {a b : TaggedRow}
    (h : a.m.match_id_num = b.m.match_id_num) : numLE a b = true := by
  unfold numLE
  rw [h]
  rcases b.m.match_id_num with _ | q
  · rfl
  · exact decide_eq_true le_rfl

theorem rawLE_total (a b : TaggedRow) : rawLE a b = true ∨ rawLE b a = true := by
  unfold rawLE
  rcases pstrLE_total b.m.match_id a.m.match_id with h | h
  · left; exact h
  · right; exact h

theorem rawLE_trans (a b c : TaggedRow)
    (hab : rawLE a b = true) (hbc : rawLE b c = true) : rawLE a c = true := by
  unfold rawLE at *
  exact pstrLE_trans hbc hab

theorem rawLE_antisymm {a b : TaggedRow}
    (hab : rawLE a b = true) (hba : rawLE b a = true) :
    a.m.match_id = b.m.match_id := by
  unfold rawLE at *
  exact pstrLE_antisymm hba hab

theorem rankLE_total (a b : TaggedRow) : rankLE a b = true ∨ rankLE b a = true := by
  unfold rankLE
  rcases le_total a.player_rank b.player_rank with h | h
  · left; exact decide_eq_true h
  · right; exact decide_eq_true h

theorem rankLE_trans (a b c : TaggedRow)
    (hab : rankLE a b = true) (hbc : rankLE b c = true) : rankLE a c = true := by
  unfold rankLE at *
  exact decide_eq_true (le_trans (of_decide_eq_true hab) (of_decide_eq_true hbc))

theorem rowLE_total (a b : TaggedRow) : rowLE a b = true ∨ rowLE b a = true := by
  unfold rowLE
  exact lexB_total
    (fun x y => dateLE_total x y)
    (fun x y => lexB_total (fun u v => numLE_total u v)
      (fun u v => lexB_total (fun s t => rawLE_total s t)
        (fun s t => rankLE_total s t) u v) x y) a b

theorem rowLE_trans (a b c : TaggedRow)
    (hab : rowLE a b = true) (hbc : rowLE b c = true) : rowLE a c = true := by
  unfold rowLE at *
  exact lexB_trans dateLE_trans
    (fun x y z => lexB_trans numLE_trans
      (fun u v w => lexB_trans rawLE_trans rankLE_trans u v w) x y z) a b c hab hbc

/-- Reflexivity of the four-level comparator at equal keys, phrased as: when
the three match keys agree, `rowLE` is exactly the rank comparison. -/
theorem rowLE_eq_rank {a b : TaggedRow}
    (hd : sortDate a = sortDate b)
    (hn : a.m.match_id_num = b.m.match_id_num)
    (hr : a.m.match_id = b.m.match_id) :
    rowLE a b = rankLE a b := by
  have hdab : dateLE a b = true := by
    unfold dateLE; exact decide_eq_true (le_of_eq hd.symm)
  have hdba : dateLE b a = true := by
    unfold dateLE; exact decide_eq_true (le_of_eq hd)
  have hnab : numLE a b = true := numLE_of_eq hn
  have hnba : numLE b a = true := numLE_of_eq hn.symm
  have hrab : rawLE a b = true := by unfold rawLE; rw [hr]; exact pstrLE_refl _
  have hrba : rawLE b a = true := by unfold rawLE; rw [hr]; exact pstrLE_refl _
  unfold rowLE
  rw [lexB_of_eq hdab hdba, lexB_of_eq hnab hnba, lexB_of_eq hrab hrba]

/-- Sandwich lemma: a row ordered between two rows of equal three-part key has
that same key. -/
theorem rowLE_sandwich {x y z : TaggedRow}
    (hxy : rowLE x y = true) (hyz : rowLE y z = true)
    (hd : sortDate x = sortDate z)
    (hn : x.m.match_id_num = z.m.match_id_num)
    (hr : x.m.match_id = z.m.match_id) :
    sortDate y = sortDate x ∧ y.m.match_id_num = x.m.match_id_num
      ∧ y.m.match_id = x.m.match_id := by
  have hdxy : dateLE x y = true := lexB_le1 hxy
  have hdyz : dateLE y z = true := lexB_le1 hyz
  have hdyx : dateLE y x = true := by
    unfold dateLE at *
    exact decide_eq_true (le_trans (le_of_eq hd) (of_decide_eq_true hdyz))
  have hdzy : dateLE z y = true := by
    unfold dateLE at *
    exact decide_eq_true (le_trans (of_decide_eq_true hdxy) (le_of_eq hd))
  have hdeq : sortDate y = sortDate x := dateLE_antisymm hdyx hdxy
  have h2xy : lexB numLE (lexB rawLE rankLE) x y = true := lexB_le2 hxy hdyx
  have h2yz : lexB numLE (lexB rawLE rankLE) y z = true := lexB_le2 hyz hdzy
  have hnxy : numLE x y = true := lexB_le1 h2xy
  have hnyz : numLE y z = true := lexB_le1 h2yz
  have hnyx : numLE y x = true := by
    unfold numLE at hnyz ⊢
    rw [hn]
    exact hnyz
  have hneq : y.m.match_id_num = x.m.match_id_num := numLE_antisymm hnyx hnxy
  have hnzy : numLE z y = true :=
    numLE_of_eq ((hneq.trans hn).symm)
  have h3xy : lexB rawLE rankLE x y = true := lexB_le2 h2xy hnyx
  have h3yz : lexB rawLE rankLE y z = true := lexB_le2 h2yz hnzy
  have hrxy : rawLE x y = true := lexB_le1 h3xy
  have hryz : rawLE y z = true := lexB_le1 h3yz
  have hryx : rawLE y x = true := by
    unfold rawLE at hryz ⊢
    rw [← hr] at hryz
    exact hryz
  have hreq : y.m.match_id = x.m.match_id := rawLE_antisymm hryx hrxy
  exact ⟨hdeq, hneq, hreq⟩

/-! ### Structure of the pipeline output -/

theorem mem_tagRows {l : List MetricRow} {k : Nat} {ty : String} {r : TaggedRow}
    (h : r ∈ tagRows l k ty) :
    r.player_rank = k ∧ r.row_type = ty ∧ r.m ∈ l := by
  rcases List.mem_map.1 h with ⟨mr, hmr, rfl⟩
  exact ⟨rfl, rfl, hmr⟩

theorem mem_metrics_fields {df : DataFrame} {team p : PyStr} {mr : MetricRow}
    (h : mr ∈ computePlayerMatchMetrics df team p) :
    mr.match_date = matchDateFromMatchId mr.match_id
      ∧ mr.match_id_num = pyToNumeric mr.match_id := by
  rcases List.mem_map.1 h with ⟨raw, _, rfl⟩
  exact ⟨rfl, rfl⟩

theorem combinedRows_compare {df : DataFrame} {team p s : PyStr}
    (hs : s ≠ []) (hsp : s ≠ p) (hB : computePlayerMatchMetrics df team s ≠ []) :
    combinedRows df team p (some s) =
      tagRows (computePlayerMatchMetrics df team p) 0 "primary"
        ++ tagRows (computePlayerMatchMetrics df team s) 1 "compare" := by
  unfold combinedRows
  simp [hs, hsp, hB]

theorem combinedRows_single {df : DataFrame} {team p : PyStr} {comp : Option PyStr}
    (h : comp = none ∨ comp = some [] ∨ comp = some p
        ∨ (∃ s, comp = some s ∧ computePlayerMatchMetrics df team s = [])) :
    combinedRows df team p comp =
      tagRows (computePlayerMatchMetrics df team p) 0 "primary" := by
  unfold combinedRows
  rcases h with rfl | rfl | rfl | ⟨s, rfl, hs⟩
  · rfl
  · simp
  · simp
  · by_cases h1 : s = [] ∨ s = p
    · rcases h1 with rfl | rfl <;> simp
    · push_neg at h1
      simp [h1.1, h1.2, hs]

theorem mem_combinedRows {df : DataFrame} {team p : PyStr} {comp : Option PyStr}
    {r : TaggedRow} (h : r ∈ combinedRows df team p comp) :
    (r.m.match_date = matchDateFromMatchId r.m.match_id
      ∧ r.m.match_id_num = pyToNumeric r.m.match_id)
    ∧ ((r.player_rank = 0 ∧ r.row_type = "primary")
        ∨ (r.player_rank = 1 ∧ r.row_type = "compare")) := by
  unfold combinedRows at h
  have hmain : ∀ {team' p' : PyStr} {k : Nat} {ty : String},
      r ∈ tagRows (computePlayerMatchMetrics df team' p') k ty →
        r.m.match_date = matchDateFromMatchId r.m.match_id
          ∧ r.m.match_id_num = pyToNumeric r.m.match_id
          ∧ r.player_rank = k ∧ r.row_type = ty := by
    intro team' p' k ty hr
    obtain ⟨hk, hty, hm⟩ := mem_tagRows hr
    obtain ⟨h1, h2⟩ := mem_metrics_fields hm
    exact ⟨h1, h2, hk, hty⟩
  rcases comp with _ | s
  · obtain ⟨h1, h2, h3, h4⟩ := hmain h
    exact ⟨⟨h1, h2⟩, Or.inl ⟨h3, h4⟩⟩
  · simp only [] at h
    by_cases hcond : (s = [] || decide (s = p)) = true
    · rw [if_pos hcond] at h
      obtain ⟨h1, h2, h3, h4⟩ := hmain h
      exact ⟨⟨h1, h2⟩, Or.inl ⟨h3, h4⟩⟩
    · rw [if_neg (by simpa using hcond)] at h
      by_cases hemp : computePlayerMatchMetrics df team s = []
      · rw [if_pos hemp] at h
        obtain ⟨h1, h2, h3, h4⟩ := hmain h
        exact ⟨⟨h1, h2⟩, Or.inl ⟨h3, h4⟩⟩
      · rw [if_neg hemp] at h
        rcases List.mem_append.1 h with h' | h'
        · obtain ⟨h1, h2, h3, h4⟩ := hmain h'
          exact ⟨⟨h1, h2⟩, Or.inl ⟨h3, h4⟩⟩
        · obtain ⟨h1, h2, h3, h4⟩ := hmain h'
          exact ⟨⟨h1, h2⟩, Or.inr ⟨h3, h4⟩⟩

theorem build_ok_iff {df : DataFrame} {team p : PyStr} {comp : Option PyStr}
    {rows : List TaggedRow} :
    buildPlayerMatchOverview df team p comp = Except.ok rows ↔
      missingColumns df = [] ∧ computePlayerMatchMetrics df team p ≠ []
        ∧ rows = sortS rowLE (combinedRows df team p comp) := by
  unfold buildPlayerMatchOverview validatePhysicalData
  by_cases hm : missingColumns df = []
  · rw [if_pos hm]
    by_cases hp : computePlayerMatchMetrics df team p = []
    · simp [hp, hm]
    · simp [hp, hm, eq_comm]
  · rw [if_neg hm]
    simp [hm]

theorem build_rows_wf {df : DataFrame} {team p : PyStr} {comp : Option PyStr}
    {rows : List TaggedRow}
    (hok : buildPlayerMatchOverview df team p comp = Except.ok rows)
    {r : TaggedRow} (hr : r ∈ rows) :
    (r.m.match_date = matchDateFromMatchId r.m.match_id
      ∧ r.m.match_id_num = pyToNumeric r.m.match_id)
    ∧ ((r.player_rank = 0 ∧ r.row_type = "primary")
        ∨ (r.player_rank = 1 ∧ r.row_type = "compare")) := by
  obtain ⟨-, -, hrows⟩ := build_ok_iff.1 hok
  rw [hrows] at hr
  exact mem_combinedRows ((sortS_perm rowLE _).mem_iff.1 hr)

theorem build_rows_sorted {df : DataFrame} {team p : PyStr} {comp : Option PyStr}
    {rows : List TaggedRow}
    (hok : buildPlayerMatchOverview df team p comp = Except.ok rows) :
    rows.Pairwise (fun a b => rowLE a b = true) := by
  obtain ⟨-, -, hrows⟩ := build_ok_iff.1 hok
  rw [hrows]
  exact sortS_pairwise rowLE_total rowLE_trans _

/-! ### Schema helpers -/

theorem mem_missingColumns {df : DataFrame} {c : String} :
    c ∈ missingColumns df ↔ c ∈ REQUIRED_COLUMNS ∧ c ∉ df.columns := by
  unfold missingColumns
  rw [(sortS_perm _ _).mem_iff, List.mem_filter]
  simp

theorem missingColumns_nil_iff {df : DataFrame} :
    missingColumns df = [] ↔ ∀ c ∈ REQUIRED_COLUMNS, c ∈ df.columns := by
  constructor
  · intro h c hc
    by_contra hnc
    have : c ∈ missingColumns df := mem_missingColumns.2 ⟨hc, hnc⟩
    rw [h] at this
    cases this
  · intro h
    unfold missingColumns
    have : REQUIRED_COLUMNS.filter (fun c => decide (c ∉ df.columns)) = [] := by
      rw [List.filter_eq_nil_iff]
      intro c hc
      simp [h c hc]
    rw [this]
    rfl

/-! ### Claim theorems -/

/-- Claim C4: for the match label `"PSV vs Go Ahead Eagles"`, the parser
returns `("Home", "Go Ahead Eagles")` for club `"PSV"`,
`("Away", "PSV")` for club `"Go Ahead Eagles"`, and
`("?", "PSV vs Go Ahead Eagles")` for club `"FC Utrecht"`. -/
theorem C4_home_away_parity :
    parseHomeAwayAndOpponent (pstr "PSV vs Go Ahead Eagles") (pstr "PSV")
        = (pstr "Home", pstr "Go Ahead Eagles")
    ∧ parseHomeAwayAndOpponent (pstr "PSV vs Go Ahead Eagles")
        (pstr "Go Ahead Eagles") = (pstr "Away", pstr "PSV")
    ∧ parseHomeAwayAndOpponent (pstr "PSV vs Go Ahead Eagles")
        (pstr "FC Utrecht") = (pstr "?", pstr "PSV vs Go Ahead Eagles") := by
  refine ⟨?_, ?_, ?_⟩ <;> decide

/-- Claim C7: a table missing required columns makes the app's validation
fail — before any team listing — with an error naming every missing column,
while a table with all ten required columns passes validation regardless of
extra columns. -/
theorem C7_schema_error (df : DataFrame) :
    ((∃ c ∈ REQUIRED_COLUMNS, c ∉ df.columns) →
      appMainFlow df = Except.error (PhysError.schema (missingColumns df))
        ∧ (∀ c ∈ REQUIRED_COLUMNS, c ∉ df.columns → c ∈ missingColumns df))
    ∧ ((∀ c ∈ REQUIRED_COLUMNS, c ∈ df.columns) →
      appMainFlow df = Except.ok (listTeams df)) := by
  constructor
  · rintro ⟨c, hc, hnc⟩
    have hmiss : missingColumns df ≠ [] := by
      intro h
      have := mem_missingColumns.2 ⟨hc, hnc⟩
      rw [h] at this
      cases this
    constructor
    · unfold appMainFlow validatePhysicalData
      rw [if_neg hmiss]
    · intro c' hc' hnc'
      exact mem_missingColumns.2 ⟨hc', hnc'⟩
  · intro h
    unfold appMainFlow validatePhysicalData
    rw [if_pos (missingColumns_nil_iff.2 h)]

/-- Witness for C7: the fixture lacking `hi_runs` fails validation with an
error naming `hi_runs`, while the full-schema fixture (with an extra column)
passes. -/
theorem C7_schema_error_witness :
    (appMainFlow dfMissingHiRuns
        = Except.error (PhysError.schema (missingColumns dfMissingHiRuns))
      ∧ "hi_runs" ∈ missingColumns dfMissingHiRuns)
    ∧ appMainFlow dfFix = Except.ok (listTeams dfFix) := by
  refine ⟨⟨?_, ?_⟩, ?_⟩
  · exact ((C7_schema_error dfMissingHiRuns).1 ⟨"hi_runs", by decide, by decide⟩).1
  · exact ((C7_schema_error dfMissingHiRuns).1 ⟨"hi_runs", by decide, by decide⟩).2
      "hi_runs" (by decide) (by decide)
  · exact (C7_schema_error dfFix).2 (by decide)

/-- Claim C10: `build_player_match_overview` re-validates the schema before
filtering, so a frame with missing required columns always yields the schema
error (listing all missing columns), never the not-found error, whatever the
team/player arguments. -/
theorem C10_schema_precedence (df : DataFrame) (team p : PyStr)
    (comp : Option PyStr) (hmiss : missingColumns df ≠ []) :
    buildPlayerMatchOverview df team p comp
        = Except.error (PhysError.schema (missingColumns df))
      ∧ (∀ c ∈ REQUIRED_COLUMNS, c ∉ df.columns → c ∈ missingColumns df)
      ∧ buildPlayerMatchOverview df team p comp ≠ Except.error PhysError.notFound := by
  have hbuild : buildPlayerMatchOverview df team p comp
      = Except.error (PhysError.schema (missingColumns df)) := by
    unfold buildPlayerMatchOverview validatePhysicalData
    rw [if_neg hmiss]
  refine ⟨hbuild, ?_, ?_⟩
  · intro c hc hnc
    exact mem_missingColumns.2 ⟨hc, hnc⟩
  · rw [hbuild]
    intro h
    cases h

/-- Witness for C10: on the fixture lacking `hi_runs`, the overview builder
raises the schema error even for a player that does not exist. -/
theorem C10_schema_precedence_witness :
    buildPlayerMatchOverview dfMissingHiRuns (pstr "X") (pstr "Nobody") none
        = Except.error (PhysError.schema (missingColumns dfMissingHiRuns))
      ∧ buildPlayerMatchOverview dfMissingHiRuns (pstr "X") (pstr "Nobody") none
        ≠ Except.error PhysError.notFound := by
  refine ⟨?_, ?_⟩
  · exact (C10_schema_precedence dfMissingHiRuns (pstr "X") (pstr "Nobody") none
      (by decide)).1
  · exact (C10_schema_precedence dfMissingHiRuns (pstr "X") (pstr "Nobody") none
      (by decide)).2.2

/-- Claim C9: the layout scale equals
`clamp(min(avail_w / base_table_w, avail_h / base_table_h), 0.45, 1.35)`:
exactly `1.35` when the unclamped minimum exceeds `1.35`, exactly `0.45` when
it falls below `0.45`, and the unclamped minimum itself in between. -/
theorem C9_layout_scale_clamp (availW availH : ℚ) (nRows : Nat) :
    (1.35 < min (availW / baseTableW) (availH / baseTableH nRows) →
      layoutScale availW availH nRows = 1.35)
    ∧ (min (availW / baseTableW) (availH / baseTableH nRows) < 0.45 →
      layoutScale availW availH nRows = 0.45)
    ∧ (0.45 ≤ min (availW / baseTableW) (availH / baseTableH nRows) →
      min (availW / baseTableW) (availH / baseTableH nRows) ≤ 1.35 →
      layoutScale availW availH nRows
        = min (availW / baseTableW) (availH / baseTableH nRows)) := by
  unfold layoutScale clampQ
  refine ⟨?_, ?_, ?_⟩
  · intro h
    rw [min_eq_left (le_of_lt h), max_eq_right (by norm_num)]
  · intro h
    rw [min_eq_right (le_of_lt (lt_trans h (by norm_num))),
      max_eq_left (le_of_lt h)]
  · intro h1 h2
    rw [min_eq_right h2, max_eq_right h1]

/-- Witness for C9: a small table on a large page clamps to 1.35, a huge
table clamps to 0.45, and an exactly-fitting table keeps its raw scale 1. -/
theorem C9_layout_scale_clamp_witness :
    layoutScale 3200 3200 10 = 1.35
    ∧ layoutScale 160 160 10 = 0.45
    ∧ layoutScale 1600 576 10 = 1 := by
  refine ⟨?_, ?_, ?_⟩
  · exact (C9_layout_scale_clamp 3200 3200 10).1 (by norm_num [baseTableW, baseTableH])
  · exact (C9_layout_scale_clamp 160 160 10).2.1 (by norm_num [baseTableW, baseTableH])
  · have h := (C9_layout_scale_clamp 1600 576 10).2.2
      (by norm_num [baseTableW, baseTableH]) (by norm_num [baseTableW, baseTableH])
    rw [h]
    norm_num [baseTableW, baseTableH]

/-- Emptiness of the filtered metrics frame coincides with the absence of a
matching (club, player) row. -/
theorem metrics_empty_iff {df : DataFrame} {team p : PyStr} :
    computePlayerMatchMetrics df team p = [] ↔
      ¬ ∃ r ∈ df.rows, r.club = team ∧ r.player_name = p := by
  unfold computePlayerMatchMetrics
  rw [List.map_eq_nil_iff, List.filter_eq_nil_iff]
  simp

/-- Claim C6: with a valid schema, `build_player_match_overview` raises the
not-found error iff no row matches the (team, player) pair exactly; a
supplied comparison player with zero records — or equal to the target —
raises nothing and yields exactly the target-only rows, all tagged primary. -/
theorem C6_not_found (df : DataFrame) (team p : PyStr) (comp : Option PyStr)
    (hvalid : missingColumns df = []) :
    (buildPlayerMatchOverview df team p comp = Except.error PhysError.notFound ↔
      ¬ ∃ r ∈ df.rows, r.club = team ∧ r.player_name = p)
    ∧ (∀ s, comp = some s →
        (computePlayerMatchMetrics df team s = [] ∨ s = p) →
        computePlayerMatchMetrics df team p ≠ [] →
        ∃ rows, buildPlayerMatchOverview df team p comp = Except.ok rows
          ∧ buildPlayerMatchOverview df team p none = Except.ok rows
          ∧ ∀ r ∈ rows, r.row_type = "primary") := by
  constructor
  · rw [← metrics_empty_iff]
    unfold buildPlayerMatchOverview validatePhysicalData
    rw [if_pos hvalid]
    by_cases hp : computePlayerMatchMetrics df team p = []
    · rw [if_pos hp]; simp [hp]
    · rw [if_neg hp]; simp [hp]
  · intro s hcomp hdeg hp
    subst hcomp
    have hsingle : combinedRows df team p (some s) =
        tagRows (computePlayerMatchMetrics df team p) 0 "primary" := by
      rcases hdeg with hdeg | rfl
      · exact combinedRows_single (Or.inr (Or.inr (Or.inr ⟨s, rfl, hdeg⟩)))
      · exact combinedRows_single (Or.inr (Or.inr (Or.inl rfl)))
    have hnone : combinedRows df team p none =
        tagRows (computePlayerMatchMetrics df team p) 0 "primary" :=
      combinedRows_single (Or.inl rfl)
    refine ⟨sortS rowLE (tagRows (computePlayerMatchMetrics df team p) 0 "primary"),
      ?_, ?_, ?_⟩
    · exact build_ok_iff.2 ⟨hvalid, hp, by rw [hsingle]⟩
    · exact build_ok_iff.2 ⟨hvalid, hp, by rw [hnone]⟩
    · intro r hr
      have := (sortS_perm rowLE _).mem_iff.1 hr
      exact (mem_tagRows this).2.1

/-- Witness for C6: on the fixture table, a nonexistent target raises the
not-found error, while comparison player `C` (no records) degrades to the
target-only primary rows. -/
theorem C6_not_found_witness :
    buildPlayerMatchOverview dfFix (pstr "X") (pstr "Nobody") none
        = Except.error PhysError.notFound
    ∧ ∃ rows, buildPlayerMatchOverview dfFix (pstr "X") (pstr "A")
          (some (pstr "C")) = Except.ok rows
        ∧ buildPlayerMatchOverview dfFix (pstr "X") (pstr "A") none
          = Except.ok rows
        ∧ ∀ r ∈ rows, r.row_type = "primary" := by
  constructor
  · exact (C6_not_found dfFix (pstr "X") (pstr "Nobody") none
      (by decide)).1.mpr (by decide)
  · exact (C6_not_found dfFix (pstr "X") (pstr "A") (some (pstr "C"))
      (by decide)).2 (pstr "C") rfl (Or.inl (by decide)) (by decide)

/-- Counterexample to claim C3 as stated: a derived row with `Minutes = 0`
and `total_distance = 10000` has `m_per_min = +inf` — an infinite number,
not an undefined/missing value. -/
theorem C3_counterexample :
    (computePlayerMatchMetrics dfZeroMin (pstr "X") (pstr "A")).map
        (fun mr => mr.m_per_min) = [PVal.inf]
    ∧ PVal.inf ≠ PVal.nan := by
  exact ⟨by decide, by decide⟩

/-- Claim C3 (amended): `total_km = total_distance / 1000` for every derived
row (NaN propagating); `m_per_min = total_distance / minutes` whenever
minutes is a nonzero number; `m_per_min` is undefined (NaN) when minutes is
missing/non-numeric; but when minutes is zero and `total_distance` is a
nonzero number, `m_per_min` is `+inf`/`-inf` (NaN only when `total_distance`
is also zero), not an undefined value. -/
theorem C3_unit_derivations (r : RawRow) :
    (∀ d : ℚ, r.total_distance = PVal.num d →
        (metricOfRow r).total_km = PVal.num (d / 1000))
    ∧ (r.total_distance = PVal.nan → (metricOfRow r).total_km = PVal.nan)
    ∧ (∀ d q : ℚ, r.total_distance = PVal.num d → r.minutes = PVal.num q →
        q ≠ 0 → (metricOfRow r).m_per_min = PVal.num (d / q))
    ∧ (r.minutes = PVal.nan → (metricOfRow r).m_per_min = PVal.nan)
    ∧ (∀ d : ℚ, r.total_distance = PVal.num d → 0 < d → r.minutes = PVal.num 0 →
        (metricOfRow r).m_per_min = PVal.inf)
    ∧ (∀ d : ℚ, r.total_distance = PVal.num d → d < 0 → r.minutes = PVal.num 0 →
        (metricOfRow r).m_per_min = PVal.ninf)
    ∧ (r.total_distance = PVal.num 0 → r.minutes = PVal.num 0 →
        (metricOfRow r).m_per_min = PVal.nan) := by
  have hkm : (metricOfRow r).total_km = pyDiv r.total_distance (PVal.num 1000) := rfl
  have hmm : (metricOfRow r).m_per_min = pyDiv r.total_distance r.minutes := rfl
  refine ⟨?_, ?_, ?_, ?_, ?_, ?_, ?_⟩
  · intro d h
    rw [hkm, h]
    simp only [pyDiv]
    rw [if_neg (by norm_num : (1000 : ℚ) ≠ 0)]
  · intro h
    rw [hkm, h]
    rfl
  · intro d q h1 h2 hq
    rw [hmm, h1, h2]
    simp only [pyDiv]
    rw [if_neg hq]
  · intro h
    rw [hmm, h]
    cases htd : r.total_distance <;> rfl
  · intro d h1 hd h2
    rw [hmm, h1, h2]
    simp [pyDiv, hd.ne', hd]
  · intro d h1 hd h2
    rw [hmm, h1, h2]
    simp [pyDiv, hd.ne, hd.not_lt]
  · intro h1 h2
    rw [hmm, h1, h2]
    simp [pyDiv]

/-- Witness for C3 (amended): the fixture row of player `A` has
`total_km = 10000/1000` and `m_per_min = 10000/90`. -/
theorem C3_unit_derivations_witness :
    (metricOfRow (mkRow "A" "20230101" "X vs Y" "X" (PVal.num 90)
        (PVal.num 10000) (PVal.num 20) (PVal.num 5))).total_km
      = PVal.num (10000 / 1000)
    ∧ (metricOfRow (mkRow "A" "20230101" "X vs Y" "X" (PVal.num 90)
        (PVal.num 10000) (PVal.num 20) (PVal.num 5))).m_per_min
      = PVal.num (10000 / 90) := by
  constructor
  · exact (C3_unit_derivations _).1 10000 rfl
  · exact (C3_unit_derivations _).2.2.1 10000 90 rfl rfl (by norm_num)

/-- Normal form of the bar fraction on a numeric cell. -/
theorem barFraction_num {vmin vmax : ℚ} (hlt : vmin < vmax) (x : ℚ) :
    barFraction vmin vmax (PVal.num x) =
      (if (x - vmin) / (vmax - vmin) < 1 then
        (if 0 < (x - vmin) / (vmax - vmin) then
          PVal.num ((x - vmin) / (vmax - vmin))
        else PVal.num 0)
      else PVal.num 1) := by
  have hne : vmax - vmin ≠ 0 := ne_of_gt (sub_pos.2 hlt)
  by_cases h1 : (x - vmin) / (vmax - vmin) < 1
  · by_cases h2 : 0 < (x - vmin) / (vmax - vmin)
    · simp [barFraction, clampPy, pyMax, pyMin, pySub, pyDiv, pyLt,
        not_le.2 hlt, hne, h1, h2]
    · simp [barFraction, clampPy, pyMax, pyMin, pySub, pyDiv, pyLt,
        not_le.2 hlt, hne, h1, h2]
  · simp [barFraction, clampPy, pyMax, pyMin, pySub, pyDiv, pyLt,
      not_le.2 hlt, hne, h1, zero_lt_one]

/-- Behaviour of the bar-fraction computation for a single bar column with
`vmin < vmax` (all four configured scales satisfy this). -/
theorem barFraction_spec {vmin vmax : ℚ} (hlt : vmin < vmax) (v : PVal) :
    (∃ q : ℚ, barFraction vmin vmax v = PVal.num q ∧ 0 ≤ q ∧ q ≤ 1)
    ∧ (∀ x : ℚ, v = PVal.num x →
        (barFraction vmin vmax v = PVal.num 0 ↔ x ≤ vmin))
    ∧ (∀ x : ℚ, v = PVal.num x →
        (barFraction vmin vmax v = PVal.num 1 ↔ vmax ≤ x))
    ∧ (v = PVal.inf → barFraction vmin vmax v = PVal.num 1)
    ∧ (v = PVal.ninf → barFraction vmin vmax v = PVal.num 0)
    ∧ (v = PVal.nan → barFraction vmin vmax v = PVal.num 1) := by
  have hd : (0 : ℚ) < vmax - vmin := sub_pos.2 hlt
  have hnan : barFraction vmin vmax PVal.nan = PVal.num 1 := by
    unfold barFraction clampPy pyMax pyMin
    rw [if_neg (not_le.2 hlt)]
    simp [pySub, pyDiv, pyLt]
  have hinf : barFraction vmin vmax PVal.inf = PVal.num 1 := by
    unfold barFraction clampPy pyMax pyMin
    rw [if_neg (not_le.2 hlt)]
    simp only [pySub, pyDiv]
    rw [if_neg (not_lt.2 (le_of_lt hd))]
    simp [pyLt]
  have hninf : barFraction vmin vmax PVal.ninf = PVal.num 0 := by
    unfold barFraction clampPy pyMax pyMin
    rw [if_neg (not_le.2 hlt)]
    simp only [pySub, pyDiv]
    rw [if_neg (not_lt.2 (le_of_lt hd))]
    simp [pyLt]
  refine ⟨?_, ?_, ?_, fun h => h ▸ hinf, fun h => h ▸ hninf, fun h => h ▸ hnan⟩
  · rcases v with _ | _ | _ | x
    · exact ⟨1, hnan, by norm_num⟩
    · exact ⟨1, hinf, by norm_num⟩
    · exact ⟨0, hninf, by norm_num⟩
    · rw [barFraction_num hlt]
      by_cases h1 : (x - vmin) / (vmax - vmin) < 1
      · by_cases h2 : 0 < (x - vmin) / (vmax - vmin)
        · rw [if_pos h1, if_pos h2]
          exact ⟨_, rfl, le_of_lt h2, le_of_lt h1⟩
        · rw [if_pos h1, if_neg h2]
          exact ⟨0, rfl, by norm_num⟩
      · rw [if_neg h1]
        exact ⟨1, rfl, by norm_num⟩
  · rintro x rfl
    rw [barFraction_num hlt]
    by_cases h1 : (x - vmin) / (vmax - vmin) < 1
    · by_cases h2 : 0 < (x - vmin) / (vmax - vmin)
      · rw [if_pos h1, if_pos h2]
        have hvx : vmin < x := by
          have := (lt_div_iff hd).1 h2
          linarith
        constructor
        · intro h
          have ht : (x - vmin) / (vmax - vmin) = 0 := by injection h
          exact absurd ht (ne_of_gt h2)
        · intro h
          exact absurd h (not_le.2 hvx)
      · rw [if_pos h1, if_neg h2]
        have hx : x ≤ vmin := by
          have h2' : (x - vmin) / (vmax - vmin) ≤ 0 := not_lt.1 h2
          rcases div_nonpos_iff.1 h2' with ⟨h3, h4⟩ | ⟨h3, h4⟩
          · linarith
          · linarith
        simp [hx]
    · rw [if_neg h1]
      have hx : vmax ≤ x := by
        have h1' : (1 : ℚ) ≤ (x - vmin) / (vmax - vmin) := not_lt.1 h1
        have := (le_div_iff hd).1 h1'
        linarith
      constructor
      · intro h
        have h10 : (1 : ℚ) = 0 := by injection h
        norm_num at h10
      · intro h
        exfalso
        linarith
  · rintro x rfl
    rw [barFraction_num hlt]
    by_cases h1 : (x - vmin) / (vmax - vmin) < 1
    · have hx : ¬ vmax ≤ x := by
        intro hc
        have : (1 : ℚ) ≤ (x - vmin) / (vmax - vmin) := by
          rw [le_div_iff hd]
          linarith
        exact absurd h1 (not_lt.2 this)
      by_cases h2 : 0 < (x - vmin) / (vmax - vmin)
      · rw [if_pos h1, if_pos h2]
        constructor
        · intro h
          have ht : (x - vmin) / (vmax - vmin) = 1 := by injection h
          exact absurd ht (ne_of_lt h1)
        · intro h
          exact absurd h hx
      · rw [if_pos h1, if_neg h2]
        constructor
        · intro h
          have h01 : (0 : ℚ) = 1 := by injection h
          norm_num at h01
        · intro h
          exact absurd h hx
    · rw [if_neg h1]
      have hx : vmax ≤ x := by
        have h1' : (1 : ℚ) ≤ (x - vmin) / (vmax - vmin) := not_lt.1 h1
        have := (le_div_iff hd).1 h1'
        linarith
      simp [hx]

/-- Counterexample to claim C8 as stated: an undefined (NaN) value gets bar
fraction 1 (a full bar), not 0 — `float(nan)` does not raise, the ratio is
NaN, and Python's `max(0.0, min(1.0, nan))` evaluates to `1.0`. -/
theorem C8_counterexample :
    barFraction 0 140 PVal.nan = PVal.num 1
    ∧ PVal.num (1 : ℚ) ≠ PVal.num 0
    ∧ ("m/min", (0 : ℚ), (140 : ℚ)) ∈ BAR_SCALES := by
  exact ⟨by decide, by decide, by decide⟩

/-- Claim C8 (amended): for every configured bar scale and every cell value,
the bar fraction is a number in `[0, 1]`, never raising; for a numeric value
it is `0` iff the value is ≤ vmin and `1` iff the value is ≥ vmax (±inf
included); an undefined (NaN) value yields fraction `1` — a full bar — rather
than the claimed `0`; the printed cell text is the raw unclamped value, with
the placeholder for NaN. -/
theorem C8_bar_clamp (c : String) (vmin vmax : ℚ) (v : PVal)
    (hmem : (c, vmin, vmax) ∈ BAR_SCALES) :
    (∃ q : ℚ, barFraction vmin vmax v = PVal.num q ∧ 0 ≤ q ∧ q ≤ 1)
    ∧ (∀ x : ℚ, v = PVal.num x →
        (barFraction vmin vmax v = PVal.num 0 ↔ x ≤ vmin))
    ∧ (∀ x : ℚ, v = PVal.num x →
        (barFraction vmin vmax v = PVal.num 1 ↔ vmax ≤ x))
    ∧ (v = PVal.inf → barFraction vmin vmax v = PVal.num 1)
    ∧ (v = PVal.ninf → barFraction vmin vmax v = PVal.num 0)
    ∧ (v = PVal.nan → barFraction vmin vmax v = PVal.num 1)
    ∧ (∀ x : ℚ, v = PVal.num x → barPrintedValue v = some (PVal.num x))
    ∧ (v = PVal.nan → barPrintedValue v = none) := by
  have hlt : vmin < vmax := by
    fin_cases hmem <;> norm_num
  obtain ⟨hq, h0, h1, hi, hni, hn⟩ := barFraction_spec hlt v
  refine ⟨hq, h0, h1, hi, hni, hn, ?_, ?_⟩
  · rintro x rfl
    simp [barPrintedValue]
  · rintro rfl
    simp [barPrintedValue]

/-- Witness for C8 (amended): on the m/min scale, the in-range value 70 gets
a fraction in `[0,1]`, and 200 (above vmax) clamps to exactly 1. -/
theorem C8_bar_clamp_witness :
    (∃ q : ℚ, barFraction 0 140 (PVal.num 70) = PVal.num q ∧ 0 ≤ q ∧ q ≤ 1)
    ∧ barFraction 0 140 (PVal.num 200) = PVal.num 1 := by
  constructor
  · exact (C8_bar_clamp "m/min" 0 140 (PVal.num 70) (by decide)).1
  · exact ((C8_bar_clamp "m/min" 0 140 (PVal.num 200) (by decide)).2.2.1
      200 rfl).2 (by norm_num)

/-- The separator loop returns the (trimmed) two parts of the first listed
separator whose split yields exactly two parts, whenever any listed
separator does. -/
theorem findSplitGo_spec (n : PyStr) (seps : List PyStr)
    (hex : ∃ sep ∈ seps, (splitOnL n sep).length = 2) :
    ∃ sep ∈ seps, ∃ l r, splitOnL n sep = [l, r]
      ∧ findSplitGo n seps = some (trimL l, trimL r) := by
  induction seps with
  | nil =>
      rcases hex with ⟨sep, hmem, _⟩
      cases hmem
  | cons s rest ih =>
      rcases hsp : splitOnL n s with _ | ⟨a, _ | ⟨b, _ | ⟨c, t⟩⟩⟩
      · have hex' : ∃ sep ∈ rest, (splitOnL n sep).length = 2 := by
          rcases hex with ⟨sep, hmem, hlen⟩
          rcases List.mem_cons.1 hmem with rfl | hmem'
          · rw [hsp] at hlen; cases hlen
          · exact ⟨sep, hmem', hlen⟩
        obtain ⟨sep, hmem, l, r, h1, h2⟩ := ih hex'
        refine ⟨sep, List.mem_cons_of_mem s hmem, l, r, h1, ?_⟩
        conv_lhs => unfold findSplitGo
        rw [hsp]
        exact h2
      · have hex' : ∃ sep ∈ rest, (splitOnL n sep).length = 2 := by
          rcases hex with ⟨sep, hmem, hlen⟩
          rcases List.mem_cons.1 hmem with rfl | hmem'
          · rw [hsp] at hlen; cases hlen
          · exact ⟨sep, hmem', hlen⟩
        obtain ⟨sep, hmem, l, r, h1, h2⟩ := ih hex'
        refine ⟨sep, List.mem_cons_of_mem s hmem, l, r, h1, ?_⟩
        conv_lhs => unfold findSplitGo
        rw [hsp]
        exact h2
      · refine ⟨s, List.mem_cons_self s rest, a, b, hsp, ?_⟩
        unfold findSplitGo
        rw [hsp]
      · have hex' : ∃ sep ∈ rest, (splitOnL n sep).length = 2 := by
          rcases hex with ⟨sep, hmem, hlen⟩
          rcases List.mem_cons.1 hmem with rfl | hmem'
          · rw [hsp] at hlen
            simp at hlen
          · exact ⟨sep, hmem', hlen⟩
        obtain ⟨sep, hmem, l, r, h1, h2⟩ := ih hex'
        refine ⟨sep, List.mem_cons_of_mem s hmem, l, r, h1, ?_⟩
        conv_lhs => unfold findSplitGo
        rw [hsp]
        exact h2

/-- Counterexample to claim C5 as stated: `" vS "` is a case variant of
`" vs "` missing from the source's separator list, so the label `"A vS B"` —
containing it exactly once — is treated as unparseable: the parser returns
`("?", whole label)` instead of splitting into `("Home", "B")`. -/
theorem C5_counterexample :
    splitOnL (normalizeWs (pstr "A vS B")) (pstr " vS ") = [pstr "A", pstr "B"]
    ∧ parseHomeAwayAndOpponent (pstr "A vS B") (pstr "A")
        = (pstr "?", pstr "A vS B")
    ∧ (pstr "?", pstr "A vS B") ≠ (pstr "Home", pstr "B") := by
  exact ⟨by decide, by decide, by decide⟩

/-- Claim C5 (amended): the parser splits on the five separators actually in
the source list — `" vs "`, `" v "`, `" VS "`, `" Vs "`, `" V "` (the case
variant `" vS "` is absent) — and a non-blank label in which one of those
five occurs exactly once (in the whitespace-normalized form) is never
treated as unparseable: the parse resolves home/away from the split pair. -/
theorem C5_separator_split (lbl club : PyStr)
    (hne : trimL lbl ≠ [])
    (hsep : ∃ sep ∈ SEPARATORS, (splitOnL (normalizeWs lbl) sep).length = 2) :
    ∃ sep ∈ SEPARATORS, ∃ l r,
      splitOnL (normalizeWs lbl) sep = [l, r]
      ∧ parseHomeAwayAndOpponent lbl club
          = resolveHomeAway club (trimL l) (trimL r) := by
  obtain ⟨sep, hmem, l, r, h1, h2⟩ := findSplitGo_spec (normalizeWs lbl) SEPARATORS hsep
  refine ⟨sep, hmem, l, r, h1, ?_⟩
  unfold parseHomeAwayAndOpponent
  rw [if_neg hne, h2]

/-- Witness for C5 (amended): the label `"PSV Vs Ajax"` (mixed-case `" Vs "`)
splits and resolves to an away match for club `"ajax"`. -/
theorem C5_separator_split_witness :
    ∃ sep ∈ SEPARATORS, ∃ l r,
      splitOnL (normalizeWs (pstr "PSV Vs Ajax")) sep = [l, r]
      ∧ parseHomeAwayAndOpponent (pstr "PSV Vs Ajax") (pstr "ajax")
          = resolveHomeAway (pstr "ajax") (trimL l) (trimL r) :=
  C5_separator_split (pstr "PSV Vs Ajax") (pstr "ajax") (by decide)
    ⟨pstr " Vs ", by decide, by decide⟩

/-- Every date the derivation can produce is strictly above the embedded
`pd.Timestamp.min` (encoded 0). -/
theorem matchDate_pos {s : PyStr} {d : Int}
    (h : matchDateFromMatchId s = some d) : 0 < d := by
  unfold matchDateFromMatchId at h
  rcases hp : parseIntPy s with _ | n <;> rw [hp] at h
  · cases h
  · have h' : (if 10000000 ≤ n ∧ n < 100000000 then
        if 1 ≤ n.toNat / 100 % 100 ∧ n.toNat / 100 % 100 ≤ 12
            ∧ 1 ≤ n.toNat % 100
            ∧ n.toNat % 100 ≤ daysInMonth (n.toNat / 10000) (n.toNat / 100 % 100)
            ∧ 16770922 ≤ n ∧ n ≤ 22620411 then
          some n
        else none
      else none) = some d := h
    by_cases h8 : 10000000 ≤ n ∧ n < 100000000
    · rw [if_pos h8] at h'
      by_cases hv : 1 ≤ n.toNat / 100 % 100 ∧ n.toNat / 100 % 100 ≤ 12
          ∧ 1 ≤ n.toNat % 100
          ∧ n.toNat % 100 ≤ daysInMonth (n.toNat / 10000) (n.toNat / 100 % 100)
          ∧ 16770922 ≤ n ∧ n ≤ 22620411
      · rw [if_pos hv] at h'
        injection h' with h''
        subst h''
        omega
      · rw [if_neg hv] at h'
        cases h'
    · rw [if_neg h8] at h'
      cases h'

/-- Claim C2: rows returned by `build_player_match_overview` are sorted by
descending filled date (undated rows sorting as oldest: their `Timestamp.min`
sort key is strictly below every parsed date), then descending numeric match
id with NaN last, then descending raw match id, then ascending player rank —
exactly the comparator `rowLE` — and two runs on identical input return the
identical row list. -/
theorem C2_ordering (df : DataFrame) (team p : PyStr) (comp : Option PyStr)
    (rows rows2 : List TaggedRow)
    (h1 : buildPlayerMatchOverview df team p comp = Except.ok rows)
    (h2 : buildPlayerMatchOverview df team p comp = Except.ok rows2) :
    rows.Pairwise (fun a b => rowLE a b = true)
    ∧ (∀ a ∈ rows, ∀ b ∈ rows, a.m.match_date = none →
        b.m.match_date ≠ none → sortDate a < sortDate b)
    ∧ rows = rows2 := by
  refine ⟨build_rows_sorted h1, ?_, ?_⟩
  · intro a ha b hb hna hnb
    rcases hd : b.m.match_date with _ | d
    · exact absurd hd hnb
    · have h0 : sortDate a = tsMinEnc := by unfold sortDate; rw [hna]; rfl
      have hbd : sortDate b = d := by unfold sortDate; rw [hd]; rfl
      have hwf := (build_rows_wf h1 hb).1.1
      rw [hd] at hwf
      have hdpos : 0 < d := matchDate_pos hwf.symm
      rw [h0, hbd]
      unfold tsMinEnc
      omega
  · rw [h1] at h2
    injection h2

/-- Witness for C2: on the fixture table the two-player overview is returned,
its rows are sorted by the comparator, and re-running returns the same list. -/
theorem C2_ordering_witness :
    (sortS rowLE (combinedRows dfFix (pstr "X") (pstr "A")
        (some (pstr "B")))).Pairwise (fun a b => rowLE a b = true)
    ∧ sortS rowLE (combinedRows dfFix (pstr "X") (pstr "A") (some (pstr "B")))
      = sortS rowLE (combinedRows dfFix (pstr "X") (pstr "A") (some (pstr "B"))) := by
  have h := C2_ordering dfFix (pstr "X") (pstr "A") (some (pstr "B")) _ _ rfl rfl
  exact ⟨h.1, h.2.2⟩

/-! ### Counting and adjacency machinery for the union/pairing claim -/

theorem countP_eq_one_split {l : List α} {p : α → Bool} (h : l.countP p = 1) :
    ∃ u x v, l = u ++ x :: v ∧ p x = true ∧ u.countP p = 0 ∧ v.countP p = 0 := by
  induction l with
  | nil => simp [List.countP_nil] at h
  | cons a l' ih =>
      by_cases pa : p a = true
      · have h' : l'.countP p = 0 := by
          rw [List.countP_cons_of_pos _ _ pa] at h
          omega
        exact ⟨[], a, l', rfl, pa, by simp, h'⟩
      · rw [List.countP_cons_of_neg _ _ pa] at h
        obtain ⟨u, x, v, h1, h2, h3, h4⟩ := ih h
        refine ⟨a :: u, x, v, by rw [h1]; rfl, h2, ?_, h4⟩
        rw [List.countP_cons_of_neg _ _ pa]
        exact h3

theorem countP_tagRows (l : List MetricRow) (k : Nat) (ty : String) (m : PyStr) :
    (tagRows l k ty).countP
        (fun r => decide (r.m.match_id = m ∧ r.row_type = ty))
      = l.countP (fun mr => decide (mr.match_id = m)) := by
  induction l with
  | nil => rfl
  | cons mr l' ih =>
      have hcons : tagRows (mr :: l') k ty
          = { m := mr, player_rank := k, row_type := ty } :: tagRows l' k ty := rfl
      rw [hcons, List.countP_cons, ih, List.countP_cons]
      by_cases hm : mr.match_id = m
      · simp [hm]
      · simp [hm]

theorem countP_eq_one_of_nodup_mem {α : Type _} [DecidableEq α]
    {l : List α} {m : α} (hnd : l.Nodup) (hm : m ∈ l) :
    l.countP (fun x => decide (x = m)) = 1 := by
  induction l with
  | nil => cases hm
  | cons a l' ih =>
      rw [List.nodup_cons] at hnd
      rcases List.mem_cons.1 hm with heq | hm'
      · subst heq
        rw [List.countP_cons_of_pos _ _ (by simp)]
        have h0 : l'.countP (fun x => decide (x = m)) = 0 := by
          rw [List.countP_eq_zero]
          intro b hb
          simp only [decide_eq_true_eq]
          rintro rfl
          exact hnd.1 hb
        rw [h0]
      · rw [List.countP_cons_of_neg _ _ ?_]
        · exact ih hnd.2 hm'
        · simp only [decide_eq_true_eq]
          rintro rfl
          exact hnd.1 hm'

theorem countP_eq_zero_of_not_mem {α : Type _} [DecidableEq α]
    {l : List α} {m : α} (hm : m ∉ l) :
    l.countP (fun x => decide (x = m)) = 0 := by
  rw [List.countP_eq_zero]
  intro b hb
  simp only [decide_eq_true_eq]
  rintro rfl
  exact hm hb

theorem countP_tagRows_other (l : List MetricRow) (k : Nat) {ty ty' : String}
    (hne : ty ≠ ty') (m : PyStr) :
    (tagRows l k ty).countP
        (fun r => decide (r.m.match_id = m ∧ r.row_type = ty')) = 0 := by
  rw [List.countP_eq_zero]
  intro r hr
  have hty := (mem_tagRows hr).2.1
  simp [hty, hne]

/-- In a list sorted by `rowLE`, a unique `P`-row that sorts strictly before
a unique `C`-row — such that nothing can sort between them — is immediately
followed by that `C`-row. -/
theorem sorted_pair_adjacent {l : List TaggedRow} {P C : TaggedRow → Bool}
    (hsort : l.Pairwise (fun a b => rowLE a b = true))
    (hP : l.countP P = 1) (hC : l.countP C = 1)
    (hPC : ∀ x, ¬(P x = true ∧ C x = true))
    (hord : ∀ x y, x ∈ l → y ∈ l → P x = true → C y = true →
        rowLE y x = false)
    (hbet : ∀ x y z, x ∈ l → y ∈ l → z ∈ l → P x = true → C z = true →
        rowLE x y = true → rowLE y z = true → P y = true ∨ C y = true) :
    ∃ u v x y, l = u ++ x :: y :: v ∧ P x = true ∧ C y = true := by
  obtain ⟨u, x, v, rfl, hx, hu0, hv0⟩ := countP_eq_one_split hP
  have hxl : x ∈ u ++ x :: v := by simp
  have hCx : C x = false := by
    cases hcx : C x
    · rfl
    · exact absurd ⟨hx, hcx⟩ (hPC x)
  have hsort' := hsort
  rw [List.pairwise_append] at hsort'
  obtain ⟨hsu, hsxv, hcross⟩ := hsort'
  rw [List.pairwise_cons] at hsxv
  obtain ⟨hxv, hsv⟩ := hsxv
  have hCu : u.countP C = 0 := by
    by_contra hne0
    have hpos : 0 < u.countP C := Nat.pos_of_ne_zero hne0
    obtain ⟨c, hcmem, hcC⟩ := List.countP_pos_iff.1 hpos
    have hle : rowLE c x = true := hcross c hcmem x (List.mem_cons_self x v)
    rw [hord x c hxl (by simp [hcmem]) hx hcC] at hle
    cases hle
  have hCv : v.countP C = 1 := by
    have hC' := hC
    rw [List.countP_append, List.countP_cons, hCx] at hC'
    simp only [if_false, Bool.false_eq_true] at hC'
    omega
  obtain ⟨v1, y, v2, rfl, hy, hv10, hv20⟩ := countP_eq_one_split hCv
  rcases v1 with _ | ⟨z, v1'⟩
  · exact ⟨u, v2, x, y, by simp, hx, hy⟩
  · exfalso
    have hyl : y ∈ u ++ x :: ((z :: v1') ++ y :: v2) := by simp
    have hzl : z ∈ u ++ x :: ((z :: v1') ++ y :: v2) := by simp
    have hxz : rowLE x z = true := hxv z (by simp)
    rw [List.pairwise_append] at hsv
    obtain ⟨-, -, hcross2⟩ := hsv
    have hzy : rowLE z y = true :=
      hcross2 z (List.mem_cons_self _ _) y (List.mem_cons_self _ _)
    rcases hbet x z y hxl hzl hyl hx hy hxz hzy with hPz | hCz
    · have h0 := List.countP_eq_zero.1 hv0 z (by simp)
      rw [hPz] at h0
      exact h0 rfl
    · have h0 := List.countP_eq_zero.1 hv10 z (List.mem_cons_self _ _)
      rw [hCz] at h0
      exact h0 rfl

/-- Claim C1: for two distinct players of the same club with non-empty match
sets (one record per match id each), the overview contains exactly one
`primary` row per record of A and exactly one `compare` row per record of B —
the match set is the union, no row appears for a match outside either set —
and for every shared match the `primary` row is immediately followed by the
`compare` row. -/
theorem C1_union_pairing (df : DataFrame) (team pA pB : PyStr)
    (rows : List TaggedRow)
    (hne : pB ≠ pA) (hBne : pB ≠ [])
    (hB : computePlayerMatchMetrics df team pB ≠ [])
    (hndA : ((computePlayerMatchMetrics df team pA).map
        (fun mr => mr.match_id)).Nodup)
    (hndB : ((computePlayerMatchMetrics df team pB).map
        (fun mr => mr.match_id)).Nodup)
    (hok : buildPlayerMatchOverview df team pA (some pB) = Except.ok rows) :
    (∀ m ∈ (computePlayerMatchMetrics df team pA).map (fun mr => mr.match_id),
        rows.countP
          (fun r => decide (r.m.match_id = m ∧ r.row_type = "primary")) = 1)
    ∧ (∀ m, m ∉ (computePlayerMatchMetrics df team pA).map (fun mr => mr.match_id) →
        rows.countP
          (fun r => decide (r.m.match_id = m ∧ r.row_type = "primary")) = 0)
    ∧ (∀ m ∈ (computePlayerMatchMetrics df team pB).map (fun mr => mr.match_id),
        rows.countP
          (fun r => decide (r.m.match_id = m ∧ r.row_type = "compare")) = 1)
    ∧ (∀ m, m ∉ (computePlayerMatchMetrics df team pB).map (fun mr => mr.match_id) →
        rows.countP
          (fun r => decide (r.m.match_id = m ∧ r.row_type = "compare")) = 0)
    ∧ (∀ m ∈ (computePlayerMatchMetrics df team pA).map (fun mr => mr.match_id),
        m ∈ (computePlayerMatchMetrics df team pB).map (fun mr => mr.match_id) →
        ∃ u v x y, rows = u ++ x :: y :: v
          ∧ x.m.match_id = m ∧ x.row_type = "primary"
          ∧ y.m.match_id = m ∧ y.row_type = "compare") := by
  obtain ⟨hvalid, hAne, hrows⟩ := build_ok_iff.1 hok
  have hcomb := combinedRows_compare hBne hne hB
  have hperm : List.Perm rows
      (tagRows (computePlayerMatchMetrics df team pA) 0 "primary"
        ++ tagRows (computePlayerMatchMetrics df team pB) 1 "compare") := by
    rw [hrows, hcomb]
    exact sortS_perm _ _
  have hcountP : ∀ m, rows.countP
      (fun r => decide (r.m.match_id = m ∧ r.row_type = "primary"))
      = ((computePlayerMatchMetrics df team pA).map
          (fun mr => mr.match_id)).countP (fun x => decide (x = m)) := by
    intro m
    rw [hperm.countP_eq, List.countP_append, countP_tagRows,
      countP_tagRows_other _ _ (by decide) m, List.countP_map]
    simp only [Nat.zero_add, Nat.add_zero]
    rfl
  have hcountC : ∀ m, rows.countP
      (fun r => decide (r.m.match_id = m ∧ r.row_type = "compare"))
      = ((computePlayerMatchMetrics df team pB).map
          (fun mr => mr.match_id)).countP (fun x => decide (x = m)) := by
    intro m
    rw [hperm.countP_eq, List.countP_append, countP_tagRows,
      countP_tagRows_other _ _ (by decide) m, List.countP_map]
    simp only [Nat.zero_add, Nat.add_zero]
    rfl
  refine ⟨?_, ?_, ?_, ?_, ?_⟩
  · intro m hm
    rw [hcountP m]
    exact countP_eq_one_of_nodup_mem hndA hm
  · intro m hm
    rw [hcountP m]
    exact countP_eq_zero_of_not_mem hm
  · intro m hm
    rw [hcountC m]
    exact countP_eq_one_of_nodup_mem hndB hm
  · intro m hm
    rw [hcountC m]
    exact countP_eq_zero_of_not_mem hm
  · intro m hmA hmB
    have hP : rows.countP
        (fun r => decide (r.m.match_id = m ∧ r.row_type = "primary")) = 1 := by
      rw [hcountP m]; exact countP_eq_one_of_nodup_mem hndA hmA
    have hC : rows.countP
        (fun r => decide (r.m.match_id = m ∧ r.row_type = "compare")) = 1 := by
      rw [hcountC m]; exact countP_eq_one_of_nodup_mem hndB hmB
    have hsort := build_rows_sorted hok
    -- properties of the two tagged rows of match m
    have hrank0 : ∀ x ∈ rows, x.m.match_id = m → x.row_type = "primary" →
        x.player_rank = 0 := by
      intro x hxl hxm hxt
      rcases (build_rows_wf hok hxl).2 with ⟨h, -⟩ | ⟨-, hty⟩
      · exact h
      · rw [hxt] at hty
        exact absurd hty (by decide)
    have hrank1 : ∀ x ∈ rows, x.m.match_id = m → x.row_type = "compare" →
        x.player_rank = 1 := by
      intro x hxl hxm hxt
      rcases (build_rows_wf hok hxl).2 with ⟨-, hty⟩ | ⟨h, -⟩
      · rw [hxt] at hty
        exact absurd hty (by decide)
      · exact h
    have hkeys : ∀ x ∈ rows, ∀ y ∈ rows, x.m.match_id = m → y.m.match_id = m →
        sortDate x = sortDate y ∧ x.m.match_id_num = y.m.match_id_num
          ∧ x.m.match_id = y.m.match_id := by
      intro x hxl y hyl hxm hym
      refine ⟨?_, ?_, hxm.trans hym.symm⟩
      · unfold sortDate
        rw [(build_rows_wf hok hxl).1.1, (build_rows_wf hok hyl).1.1, hxm, hym]
      · rw [(build_rows_wf hok hxl).1.2, (build_rows_wf hok hyl).1.2, hxm, hym]
    obtain ⟨u, v, x, y, hdec, hxP, hyC⟩ :=
      sorted_pair_adjacent (P := fun r =>
          decide (r.m.match_id = m ∧ r.row_type = "primary"))
        (C := fun r => decide (r.m.match_id = m ∧ r.row_type = "compare"))
        hsort hP hC
        (by
          intro x hx
          have h1 := of_decide_eq_true hx.1
          have h2 := of_decide_eq_true hx.2
          rw [h1.2] at h2
          exact absurd h2.2 (by decide))
        (by
          intro x y hxl hyl hx hy
          have hx' := of_decide_eq_true hx
          have hy' := of_decide_eq_true hy
          obtain ⟨hd, hn, hr⟩ := hkeys x hxl y hyl hx'.1 hy'.1
          rw [rowLE_eq_rank hd.symm hn.symm hr.symm]
          unfold rankLE
          rw [hrank0 x hxl hx'.1 hx'.2, hrank1 y hyl hy'.1 hy'.2]
          decide)
        (by
          intro x y z hxl hyl hzl hx hz hxy hyz
          have hx' := of_decide_eq_true hx
          have hz' := of_decide_eq_true hz
          obtain ⟨hd, hn, hr⟩ := hkeys x hxl z hzl hx'.1 hz'.1
          obtain ⟨hdy, hny, hry⟩ := rowLE_sandwich hxy hyz hd hn hr
          have hym : y.m.match_id = m := hry.trans hx'.1
          rcases (build_rows_wf hok hyl).2 with ⟨-, hty⟩ | ⟨-, hty⟩
          · exact Or.inl (decide_eq_true ⟨hym, hty⟩)
          · exact Or.inr (decide_eq_true ⟨hym, hty⟩))
    exact ⟨u, v, x, y, hdec,
      (of_decide_eq_true hxP).1, (of_decide_eq_true hxP).2,
      (of_decide_eq_true hyC).1, (of_decide_eq_true hyC).2⟩

/-- Witness for C1: the fixture table with players `A` and `B` of club `X`
(sharing match 20230101) satisfies all hypotheses; the shared match yields
an adjacent primary/compare pair. -/
theorem C1_union_pairing_witness :
    ∃ u v x y,
      sortS rowLE (combinedRows dfFix (pstr "X") (pstr "A") (some (pstr "B")))
          = u ++ x :: y :: v
        ∧ x.m.match_id = pstr "20230101" ∧ x.row_type = "primary"
        ∧ y.m.match_id = pstr "20230101" ∧ y.row_type = "compare" :=
  (C1_union_pairing dfFix (pstr "X") (pstr "A") (pstr "B") _
      (by decide) (by decide) (by decide) (by decide) (by decide) rfl).2.2.2.2
    (pstr "20230101") (by decide) (by decide)

end SpelerBeweging
